import Mathlib

/-!
Verification of the group-chat server core (src/server/routes.ts and
src/server/storage.ts) via a shallow embedding in Lean 4.

Conventions of the embedding:
* JavaScript timestamps (`Date` values, milliseconds) are modelled as `Int`.
* Database rows are Lean structures; tables are Lean lists kept in insertion
  order (the storage layer orders by `createdAt`, which coincides with
  insertion order in the model).
* `undefined` / `null` string-or-null values are `Option String`; JavaScript
  truthiness for such a value (`undefined`, `null` and `""` are falsy) is
  made explicit via `strTruthy` / `jsOrStr` / `jsOrNull`.
* Fallible route handlers are pure functions returning a result tag together
  with the updated store and the list of broadcast events they emit.
-/

namespace GroupChat

/-- JavaScript truthiness of an optional string: `undefined`, `null` and the
empty string are falsy. -/
def strTruthy : Option String → Bool
  | none => false
  | some s => s ≠ ""

/-- `x || d` for an optional string with a string default, as in
`req.body.type || "text"`. -/
def jsOrStr (o : Option String) (d : String) : String :=
  match o with
  | some s => if s = "" then d else s
  | none => d

/-- `x || null` for an optional string, as in `req.body.fileUrl || null`. -/
def jsOrNull (o : Option String) : Option String :=
  match o with
  | some s => if s = "" then none else some s
  | none => none

/-- Does `needle` occur at the head of `l`? (helper for substring search) -/
def charsPre : List Char → List Char → Bool
  | [], _ => true
  | _ :: _, [] => false
  | a :: as, b :: bs => a == b && charsPre as bs

/-- Does `needle` occur anywhere in `l`? -/
def charsHas (needle : List Char) : List Char → Bool
  | [] => charsPre needle []
  | c :: rest => charsPre needle (c :: rest) || charsHas needle rest

/-- JavaScript `hay.includes(needle)`: substring containment. -/
def strContains (hay needle : String) : Bool :=
  charsHas needle.data hay.data

/-- JavaScript `toLowerCase()` (ASCII case folding), rendered over the
character list so that it evaluates in the kernel. -/
def strToLower (s : String) : String :=
  ⟨s.data.map Char.toLower⟩

/-! ### The phone-number heuristic (`containsPhoneNumber` in routes.ts)

```
function containsPhoneNumber(text: string): boolean {
  const cleaned = text.replace(/[\s\-\(\)\.\+]/g, "");
  const phonePatterns = [
    /\b\d{10,13}\b/,
    /\b\d{3}[\s\-\.]\d{3}[\s\-\.]\d{4}\b/,
    /\+\d{1,3}[\s\-]?\d{6,12}\b/,
    /\b\d{4}[\s\-]\d{3}[\s\-]\d{3}\b/,
    /\b\d{5}[\s\-]\d{5}\b/,
  ];
  return phonePatterns.some(p => p.test(text)) || /\d{10,}/.test(cleaned);
}
```

Each regular expression is rendered as a matcher that is tried at every
position of the text (the semantics of `RegExp.test`), with `\b` word
boundaries made explicit through the character preceding the match
position. Counted repetitions with a range backtrack, which for a pure
`test` is existential choice over the number of repetitions. -/

/-- JavaScript regex `\w`: ASCII letters, digits, underscore. -/
def wordChar (c : Char) : Bool := c.isAlpha || c.isDigit || c == '_'

/-- JavaScript regex class `[\s\-\.]`. -/
def sepSpaceDashDot (c : Char) : Bool := c.isWhitespace || c == '-' || c == '.'

/-- JavaScript regex class `[\s\-]`. -/
def sepSpaceDash (c : Char) : Bool := c.isWhitespace || c == '-'

/-- The characters removed by `text.replace(/[\s\-\(\)\.\+]/g, "")`. -/
def strippedChar (c : Char) : Bool :=
  c.isWhitespace || c == '-' || c == '(' || c == ')' || c == '.' || c == '+'

/-- The `cleaned` text of `containsPhoneNumber`. -/
def cleanPhoneText (s : String) : List Char :=
  s.data.filter (fun c => !strippedChar c)

/-- Consume exactly `k` characters satisfying `p`, returning the rest. -/
def takeClass (p : Char → Bool) : Nat → List Char → Option (List Char)
  | 0, cs => some cs
  | _ + 1, [] => none
  | k + 1, c :: cs => if p c then takeClass p k cs else none

/-- A `\b` word boundary holds before the match when the preceding character
(if any) is not a word character. -/
def boundaryBefore : Option Char → Bool
  | none => true
  | some c => !wordChar c

/-- A `\b` word boundary holds after the match when the next character
(if any) is not a word character. -/
def noWordAt : List Char → Bool
  | [] => true
  | c :: _ => !wordChar c

/-- Try matcher `m` at every position of the list, remembering the previous
character for word-boundary tests (`RegExp.test` searches all positions). -/
def searchAux (m : Option Char → List Char → Bool) : Option Char → List Char → Bool
  | prev, [] => m prev []
  | prev, c :: cs => m prev (c :: cs) || searchAux m (some c) cs

/-- `RegExp.test` on a string. -/
def regexSearch (m : Option Char → List Char → Bool) (s : String) : Bool :=
  searchAux m none s.data

/-- `/\b\d{10,13}\b/` tried at one position. -/
def matchP1 (prev : Option Char) (cs : List Char) : Bool :=
  boundaryBefore prev &&
    ([10, 11, 12, 13].any fun k => ((takeClass Char.isDigit k cs).elim false noWordAt))

/-- `/\b\d{3}[\s\-\.]\d{3}[\s\-\.]\d{4}\b/` tried at one position. -/
def matchP2 (prev : Option Char) (cs : List Char) : Bool :=
  boundaryBefore prev &&
    ((((((takeClass Char.isDigit 3 cs).bind
        (takeClass sepSpaceDashDot 1)).bind
        (takeClass Char.isDigit 3)).bind
        (takeClass sepSpaceDashDot 1)).bind
        (takeClass Char.isDigit 4)).elim false noWordAt)

/-- `/\+\d{1,3}[\s\-]?\d{6,12}\b/` tried at one position (no leading `\b`). -/
def matchP3 (_prev : Option Char) (cs : List Char) : Bool :=
  match cs with
  | '+' :: rest =>
    [1, 2, 3].any fun a =>
      (takeClass Char.isDigit a rest).elim false fun r1 =>
        let afterSep := (takeClass sepSpaceDash 1 r1).elim [] fun r2 => [r2]
        (r1 :: afterSep).any fun t =>
          (List.range 7).any fun i =>
            (takeClass Char.isDigit (6 + i) t).elim false noWordAt
  | _ => false

/-- `/\b\d{4}[\s\-]\d{3}[\s\-]\d{3}\b/` tried at one position. -/
def matchP4 (prev : Option Char) (cs : List Char) : Bool :=
  boundaryBefore prev &&
    ((((((takeClass Char.isDigit 4 cs).bind
        (takeClass sepSpaceDash 1)).bind
        (takeClass Char.isDigit 3)).bind
        (takeClass sepSpaceDash 1)).bind
        (takeClass Char.isDigit 3)).elim false noWordAt)

/-- `/\b\d{5}[\s\-]\d{5}\b/` tried at one position. -/
def matchP5 (prev : Option Char) (cs : List Char) : Bool :=
  boundaryBefore prev &&
    ((((takeClass Char.isDigit 5 cs).bind
        (takeClass sepSpaceDash 1)).bind
        (takeClass Char.isDigit 5)).elim false noWordAt)

/-- `/\d{10,}/`: ten consecutive digits somewhere in the list. -/
def hasDigitRun10 : List Char → Bool
  | [] => false
  | c :: cs => (takeClass Char.isDigit 10 (c :: cs)).isSome || hasDigitRun10 cs

/-- `containsPhoneNumber` from routes.ts. -/
def containsPhoneNumber (text : String) : Bool :=
  ([matchP1, matchP2, matchP3, matchP4, matchP5].any fun m => regexSearch m text)
    || hasDigitRun10 (cleanPhoneText text)

/-! ### Mention extraction

`req.body.content?.match(/@(\w+(?:\s\w+)*)/g)?.map(m => m.slice(1)) || []`:
every occurrence of `@` followed by a word-character run, greedily extended
by single-whitespace-separated further word runs; the captured token
(without the `@`) is collected, and scanning resumes after the match.

The global regex scan is a left-to-right pass, rendered as a
character-at-a-time state machine so that it is structurally recursive:
* `idle` — outside any candidate match;
* `atSign` — an `@` has been read and a token starts at the next word
  character (a further `@` restarts the candidate, as the regex engine
  advances one position and retries);
* `word cur` — inside a token, `cur` being the text captured so far;
* `space cur s` — inside a token after a single whitespace character `s`;
  a following word character extends the token across the whitespace
  (`\s\w+`), anything else ends the token before `s` (the regex
  backtracks the trailing `\s`).
When a token ends, scanning resumes at the very character that ended it,
which can itself be the `@` of the next match (matches never overlap a
token because tokens contain only word and whitespace characters). -/

/-- State of the mention scanner. -/
inductive MState where
  | idle
  | atSign
  | word (cur : List Char)
  | space (cur : List Char) (s : Char)

/-- One pass of the mention scanner over the text. -/
def mentionScanAux : MState → List Char → List String
  | .idle, [] => []
  | .atSign, [] => []
  | .word cur, [] => [cur.asString]
  | .space cur _, [] => [cur.asString]
  | .idle, c :: cs =>
    if c == '@' then mentionScanAux .atSign cs else mentionScanAux .idle cs
  | .atSign, c :: cs =>
    if wordChar c then mentionScanAux (.word [c]) cs
    else if c == '@' then mentionScanAux .atSign cs
    else mentionScanAux .idle cs
  | .word cur, c :: cs =>
    if wordChar c then mentionScanAux (.word (cur ++ [c])) cs
    else if c.isWhitespace then mentionScanAux (.space cur c) cs
    else cur.asString ::
      (if c == '@' then mentionScanAux .atSign cs else mentionScanAux .idle cs)
  | .space cur s, c :: cs =>
    if wordChar c then mentionScanAux (.word (cur ++ [s, c])) cs
    else cur.asString ::
      (if c == '@' then mentionScanAux .atSign cs else mentionScanAux .idle cs)

/-- The mention tokens of a message's text content. -/
def extractMentions (s : String) : List String :=
  mentionScanAux .idle s.data

/-! ### Data model (the rows used by the verified routes; columns the routes
never read are omitted) -/

/-- A member row. -/
structure Member where
  id : String
  name : String
  phone : String
  role : String
  isActive : Bool
  restrictedUntil : Option Int
  firstLoginAt : Option Int
deriving DecidableEq, Repr

/-- A message row. -/
structure Message where
  id : String
  senderId : String
  content : Option String
  type : String
  fileUrl : Option String
  fileName : Option String
  isPinned : Bool
  isDeleted : Bool
  replyToId : Option String
  mentions : Option (List String)
  createdAt : Int
deriving DecidableEq, Repr

/-- A reaction row (`id` is the database primary key). -/
structure Reaction where
  id : Nat
  messageId : String
  memberId : String
  emoji : String
deriving DecidableEq, Repr

/-- A notification row (the `isRead`/`createdAt` columns play no role in the
verified claims and are omitted). -/
structure Notif where
  recipientId : String
  senderId : String
  messageId : String
  type : String
deriving DecidableEq, Repr

/-- The singleton chat-settings row. -/
structure ChatSettings where
  chatDisabled : Bool
  disappearAfterHours : Option Int
  memberFileSendDisabled : Bool
  phoneNumberFilterEnabled : Bool
deriving DecidableEq, Repr

/-- The slice of the database the verified routes touch. Blocked keywords are
stored already normalized (`addBlockedKeyword` lower-cases and trims). -/
structure Store where
  members : List Member
  messages : List Message
  notifications : List Notif
  reactions : List Reaction
  settings : ChatSettings
  keywords : List String
deriving DecidableEq, Repr

/-- The fixed primary-admin phone (`PRIMARY_ADMIN_PHONE` in routes.ts). -/
def PRIMARY_ADMIN_PHONE : String := "7030809030"

/-- `isAdminRole` from routes.ts. -/
def isAdminRole (role : String) : Bool := role == "admin" || role == "sub-admin"

/-- `storage.getMember`: first member row with the given id. -/
def getMember (ms : List Member) (id : String) : Option Member :=
  ms.find? (fun m => m.id == id)

/-- `storage.getMessage`: first message row with the given id. -/
def getMessage (ms : List Message) (id : String) : Option Message :=
  ms.find? (fun m => m.id == id)

/-- `sender.restrictedUntil && new Date(sender.restrictedUntil) > new Date()`:
the restriction timestamp exists and lies strictly in the future. -/
def isRestricted (m : Member) (now : Int) : Bool :=
  match m.restrictedUntil with
  | some t => now < t
  | none => false

/-- `storage.deleteMessage`: one row update setting `isDeleted` and clearing
`isPinned`; the row is not removed. -/
def deleteMessage (ms : List Message) (id : String) : List Message :=
  ms.map (fun m => if m.id == id then { m with isDeleted := true, isPinned := false } else m)

/-- `storage.pinMessage`: fetch the row, then toggle its `isPinned` flag
(no-op when the row is absent). -/
def pinMessage (ms : List Message) (id : String) : List Message :=
  match getMessage ms id with
  | some msg => ms.map (fun m => if m.id == id then { m with isPinned := !msg.isPinned } else m)
  | none => ms

/-- The reaction rows stored for one (message, member) pair — the `existing`
select of `storage.toggleReaction`. -/
def pairReactions (rs : List Reaction) (messageId memberId : String) : List Reaction :=
  rs.filter (fun r => r.messageId == messageId && r.memberId == memberId)

/-- `storage.toggleReaction`: select the rows for the (message, member) pair;
if one exists, delete it (by primary key), and stop if its emoji equals the
new one; otherwise insert a fresh row. -/
def toggleReaction (freshId : Nat) (rs : List Reaction) (messageId memberId emoji : String) :
    List Reaction :=
  match pairReactions rs messageId memberId with
  | [] => rs ++ [⟨freshId, messageId, memberId, emoji⟩]
  | e :: _ =>
    let rs' := rs.filter (fun r => r.id != e.id)
    if e.emoji == emoji then rs'
    else rs' ++ [⟨freshId, messageId, memberId, emoji⟩]

/-! ### Broadcast events and route results -/

/-- The broadcast-event envelope (`broadcast(wss, { type, ... })`). -/
inductive BEvent where
  | newMessage (m : Message)
  | notification (recipientId : String) (n : Notif)
  | messageDeleted (id : Option String)
  | messagePinned (id : String)
  | memberUpdated
  | onlineCount (count : Nat)
  | newReaction (messageId : String)
deriving DecidableEq, Repr

/-- The policy rejections a send can produce. -/
inductive Rejection where
  | invalidSender
  | restricted
  | chatDisabled
  | keywordBlocked
  | phoneBlocked
  | fileSendDisabled
deriving DecidableEq, Repr

/-- Result of a message-send route. -/
inductive SendResult where
  | ok (m : Message)
  | rejected (r : Rejection)
deriving DecidableEq, Repr

/-- Whether a send succeeded. -/
def SendResult.isOk : SendResult → Bool
  | .ok _ => true
  | .rejected _ => false

/-- Result of an administrative route. -/
inductive ApiResult where
  | ok
  | denied
  | notFound
  | badRequest
deriving DecidableEq, Repr

/-! ### `POST /api/messages` -/

/-- The request body of `POST /api/messages`. -/
structure TextBody where
  content : Option String
  type : Option String
  fileUrl : Option String
  fileName : Option String
  replyToId : Option String
deriving DecidableEq, Repr

/-- The message row inserted by `POST /api/messages`: `content`, `type`,
`fileUrl`, `fileName` and `replyToId` are passed through from the request
body (`type` defaulting to `"text"` and the others to null when falsy), and
the extracted mentions are stored when non-empty. -/
def builtTextMessage (now : Int) (senderId : String) (body : TextBody)
    (newMsgId : String) : Message :=
  let mentions := extractMentions (body.content.getD "")
  { id := newMsgId
    senderId := senderId
    content := body.content
    type := jsOrStr body.type "text"
    fileUrl := jsOrNull body.fileUrl
    fileName := jsOrNull body.fileName
    isPinned := false
    isDeleted := false
    replyToId := jsOrNull body.replyToId
    mentions := if mentions.length > 0 then some mentions else none
    createdAt := now }

/-- One step of the mention loop of `POST /api/messages`: resolve the token
against the roster (first member whose lower-cased name equals the
lower-cased token); skip the sender and already-notified recipients. The
accumulator is the `notifiedIds` set paired with the notifications created
so far. -/
def mentionStep (senderId msgId : String) (roster : List Member) :
    List String × List Notif → String → List String × List Notif :=
  fun acc mentionName =>
    match roster.find? (fun m => strToLower m.name == strToLower mentionName) with
    | some mentioned =>
      if mentioned.id != senderId && !(acc.1.contains mentioned.id) then
        (mentioned.id :: acc.1, acc.2 ++ [⟨mentioned.id, senderId, msgId, "mention"⟩])
      else acc
    | none => acc

/-- The reply part of the notification fan-out of `POST /api/messages`: when
the reply target exists and was not sent by the sender, its sender is
notified first and seeds the `notifiedIds` set. -/
def fanInit (senderId msgId : String) (replyToId : Option String)
    (msgs : List Message) : List String × List Notif :=
  match replyToId with
  | some rid =>
    match getMessage msgs rid with
    | some repliedMsg =>
      if repliedMsg.senderId != senderId then
        ([repliedMsg.senderId], [⟨repliedMsg.senderId, senderId, msgId, "reply"⟩])
      else ([], [])
    | none => ([], [])
  | none => ([], [])

/-- The notification fan-out of `POST /api/messages`: the reply notification
first (when the reply target exists and was not sent by the sender), then
one mention notification per resolved token whose member is neither the
sender nor already notified. -/
def notifFanOut (senderId msgId : String) (replyToId : Option String)
    (mentions : List String) (msgs : List Message) (roster : List Member) : List Notif :=
  (mentions.foldl (mentionStep senderId msgId roster)
    (fanInit senderId msgId replyToId msgs)).2

/-- `POST /api/messages` after `requireAuth`: policy checks in route order,
then message creation, the `new_message` broadcast, and the notification
fan-out. On any rejection the store is unchanged and nothing is broadcast. -/
def postMessage (now : Int) (st : Store) (senderId : String) (body : TextBody)
    (newMsgId : String) : SendResult × Store × List BEvent :=
  match getMember st.members senderId with
  | none => (.rejected .invalidSender, st, [])
  | some sender =>
    if isRestricted sender now then (.rejected .restricted, st, [])
    else if st.settings.chatDisabled && !isAdminRole sender.role then
      (.rejected .chatDisabled, st, [])
    else
      let contentGate : Option Rejection :=
        if strTruthy body.content && !isAdminRole sender.role then
          let contentLower := strToLower (body.content.getD "")
          if st.keywords.any (fun k => strContains contentLower k) then
            some .keywordBlocked
          else if st.settings.phoneNumberFilterEnabled
              && containsPhoneNumber (body.content.getD "") then
            some .phoneBlocked
          else none
        else none
      match contentGate with
      | some r => (.rejected r, st, [])
      | none =>
        let mentions := extractMentions (body.content.getD "")
        let msg := builtTextMessage now senderId body newMsgId
        let notifs :=
          notifFanOut senderId newMsgId (jsOrNull body.replyToId) mentions
            (st.messages ++ [msg]) st.members
        let st' := { st with
          messages := st.messages ++ [msg]
          notifications := st.notifications ++ notifs }
        (.ok msg, st',
          .newMessage msg :: notifs.map (fun n => .notification n.recipientId n))

/-! ### `POST /api/messages/upload` -/

/-- The accepted multer file of `POST /api/messages/upload`. -/
structure UploadFile where
  originalname : String
  filename : String
  mimetype : String
deriving DecidableEq, Repr

/-- The message row inserted by `POST /api/messages/upload`: null content,
type `"image"` for an image mimetype and `"file"` otherwise, the stored
file's url and original name. -/
def builtFileMessage (now : Int) (senderId : String) (file : UploadFile)
    (replyToIdRaw : Option String) (newMsgId : String) : Message :=
  { id := newMsgId
    senderId := senderId
    content := none
    type := if file.mimetype.startsWith "image/" then "image" else "file"
    fileUrl := some ("/uploads/" ++ file.filename)
    fileName := some file.originalname
    isPinned := false
    isDeleted := false
    replyToId := jsOrNull replyToIdRaw
    mentions := none
    createdAt := now }

/-- `POST /api/messages/upload` after `requireAuth` and multer: restriction
check, member-file-send check, then message creation, the `new_message`
broadcast and the reply notification. There is no chat-disabled, keyword or
phone-number check on this route. -/
def postUpload (now : Int) (st : Store) (senderId : String) (file : UploadFile)
    (replyToIdRaw : Option String) (newMsgId : String) :
    SendResult × Store × List BEvent :=
  match getMember st.members senderId with
  | none => (.rejected .invalidSender, st, [])
  | some sender =>
    if isRestricted sender now then (.rejected .restricted, st, [])
    else if st.settings.memberFileSendDisabled && !isAdminRole sender.role then
      (.rejected .fileSendDisabled, st, [])
    else
      let replyToId := jsOrNull replyToIdRaw
      let msg := builtFileMessage now senderId file replyToIdRaw newMsgId
      let notifs : List Notif :=
        match replyToId with
        | some rid =>
          match getMessage (st.messages ++ [msg]) rid with
          | some repliedMsg =>
            if repliedMsg.senderId != senderId then
              [⟨repliedMsg.senderId, senderId, newMsgId, "reply"⟩]
            else []
          | none => []
        | none => []
      let st' := { st with
        messages := st.messages ++ [msg]
        notifications := st.notifications ++ notifs }
      (.ok msg, st',
        .newMessage msg :: notifs.map (fun n => .notification n.recipientId n))

/-! ### `GET /api/messages` (the visibility filter) -/

/-- `GET /api/messages` after `requireAuth`: drop soft-deleted rows; when the
disappearing window is truthy (non-null and nonzero) keep only pinned
messages or those at least as new as `now - hours`; for a non-admin viewer
with a truthy first-login timestamp additionally keep only pinned messages
or those created at or after it. -/
def getMessagesFor (now : Int) (st : Store) (viewerId : String) : List Message :=
  let member := getMember st.members viewerId
  let msgs0 := st.messages.filter (fun m => !m.isDeleted)
  let msgs1 :=
    match st.settings.disappearAfterHours with
    | some h =>
      if h != 0 then
        msgs0.filter (fun m => m.isPinned || decide (now - h * 3600000 ≤ m.createdAt))
      else msgs0
    | none => msgs0
  match member with
  | some mem =>
    match mem.firstLoginAt with
    | some t =>
      if !isAdminRole mem.role then
        msgs1.filter (fun m => m.isPinned || decide (t ≤ m.createdAt))
      else msgs1
    | none => msgs1
  | none => msgs1

/-! ### Administrative routes guarded by `requireAdmin` -/

/-- The whitelisted fields of `PATCH /api/members/:id`. -/
structure MemberPatch where
  name : Option String
  phone : Option String
  isActive : Option Bool
deriving DecidableEq, Repr

/-- Apply the collected `allowedFields` to a member row. -/
def applyPatch (m : Member) (p : MemberPatch) : Member :=
  { m with
    name := p.name.getD m.name
    phone := p.phone.getD m.phone
    isActive := p.isActive.getD m.isActive }

/-- `storage.updateMember` restricted to an update function: rewrite every
row with the given id. -/
def updateMemberRows (ms : List Member) (id : String) (f : Member → Member) : List Member :=
  ms.map (fun m => if m.id == id then f m else m)

/-- `PATCH /api/members/:id` (including the `requireAdmin` guard). -/
def patchMemberRoute (st : Store) (requesterId targetId : String) (p : MemberPatch) :
    ApiResult × Store :=
  match getMember st.members requesterId with
  | none => (.denied, st)
  | some requester =>
    if !isAdminRole requester.role then (.denied, st)
    else
      match getMember st.members targetId with
      | none => (.notFound, st)
      | some target =>
        if target.phone == PRIMARY_ADMIN_PHONE && requester.role == "sub-admin" then
          (.denied, st)
        else if p.name == none && p.phone == none && p.isActive == none then
          (.badRequest, st)
        else
          (.ok, { st with members := updateMemberRows st.members targetId (fun m => applyPatch m p) })

/-- `POST /api/members/:id/restrict` (including the `requireAdmin` guard).
`req.body.hours || 1` defaults a missing or zero hour count to 1. -/
def restrictRoute (now : Int) (st : Store) (requesterId targetId : String)
    (hoursRaw : Option Int) : ApiResult × Store :=
  match getMember st.members requesterId with
  | none => (.denied, st)
  | some requester =>
    if !isAdminRole requester.role then (.denied, st)
    else
      let targetIsPrimary :=
        match getMember st.members targetId with
        | some t => t.phone == PRIMARY_ADMIN_PHONE
        | none => false
      if targetIsPrimary && requester.role == "sub-admin" then (.denied, st)
      else
        let hours := match hoursRaw with
          | some h => if h == 0 then 1 else h
          | none => 1
        let untilTs := now + hours * 3600000
        (.ok, { st with
          members := updateMemberRows st.members targetId
            (fun m => { m with restrictedUntil := some untilTs }) })

/-- `DELETE /api/members/:id` (including the `requireAdmin` guard). -/
def deleteMemberRoute (st : Store) (requesterId targetId : String) : ApiResult × Store :=
  match getMember st.members requesterId with
  | none => (.denied, st)
  | some requester =>
    if !isAdminRole requester.role then (.denied, st)
    else
      match getMember st.members targetId with
      | none => (.notFound, st)
      | some target =>
        if target.phone == PRIMARY_ADMIN_PHONE then (.denied, st)
        else if target.role == "sub-admin" && requester.role == "sub-admin" then (.denied, st)
        else (.ok, { st with members := st.members.filter (fun m => m.id != targetId) })

/-- `DELETE /api/messages/:id` (including the `requireAdmin` guard): a
sub-admin may not delete a message whose sender holds the primary-admin
phone; otherwise the message is soft-deleted and a `message_deleted` event
is broadcast (even when the id does not exist). -/
def deleteMessageRoute (st : Store) (requesterId msgId : String) :
    ApiResult × Store × List BEvent :=
  match getMember st.members requesterId with
  | none => (.denied, st, [])
  | some requester =>
    if !isAdminRole requester.role then (.denied, st, [])
    else
      let blockedByPrimary :=
        match getMessage st.messages msgId with
        | some message =>
          if requester.role == "sub-admin" then
            match getMember st.members message.senderId with
            | some sender => sender.phone == PRIMARY_ADMIN_PHONE
            | none => false
          else false
        | none => false
      if blockedByPrimary then (.denied, st, [])
      else
        (.ok, { st with messages := deleteMessage st.messages msgId },
          [.messageDeleted (some msgId)])

/-- The skip test of the `POST /api/messages/bulk-delete` loop: a sub-admin
requester may not delete a message whose sender holds the primary-admin
phone. -/
def bulkSkip (requester : Member) (roster : List Member) (message : Message) : Bool :=
  if requester.role == "sub-admin" then
    match getMember roster message.senderId with
    | some sender => sender.phone == PRIMARY_ADMIN_PHONE
    | none => false
  else false

/-- One iteration of the `POST /api/messages/bulk-delete` loop over
`(messages, deletedCount, skippedCount)`. -/
def bulkStep (requester : Member) (roster : List Member) :
    List Message × Nat × Nat → String → List Message × Nat × Nat :=
  fun acc msgId =>
    match getMessage acc.1 msgId with
    | some message =>
      if bulkSkip requester roster message then (acc.1, acc.2.1, acc.2.2 + 1)
      else (deleteMessage acc.1 msgId, acc.2.1 + 1, acc.2.2)
    | none => acc

/-- `POST /api/messages/bulk-delete` (including the `requireAdmin` guard):
returns the result, the updated store, the deleted and skipped counts and
the broadcast events. -/
def bulkDeleteRoute (st : Store) (requesterId : String) (messageIds : List String) :
    ApiResult × Store × Nat × Nat × List BEvent :=
  match getMember st.members requesterId with
  | none => (.denied, st, 0, 0, [])
  | some requester =>
    if !isAdminRole requester.role then (.denied, st, 0, 0, [])
    else if messageIds.isEmpty then (.badRequest, st, 0, 0, [])
    else
      let r := messageIds.foldl (bulkStep requester st.members) (st.messages, 0, 0)
      (.ok, { st with messages := r.1 }, r.2.1, r.2.2, [.messageDeleted none])

/-! ### The presence tracker (`wss.on("connection")`) -/

/-- The `onlineMembers` map: connection handle to registered member id. -/
abbrev PresenceMap := List (Nat × String)

/-- JavaScript `Map.set`: replace the binding for an existing key, append a
new binding otherwise. -/
def wsSet (m : PresenceMap) (ws : Nat) (memberId : String) : PresenceMap :=
  if m.any (fun p => p.1 == ws) then
    m.map (fun p => if p.1 == ws then (ws, memberId) else p)
  else m ++ [(ws, memberId)]

/-- JavaScript `Map.delete`. -/
def wsDelete (m : PresenceMap) (ws : Nat) : PresenceMap :=
  m.filter (fun p => p.1 != ws)

/-- `getOnlineCount`: the number of distinct member ids currently mapped. -/
def getOnlineCount (m : PresenceMap) : Nat :=
  ((m.map Prod.snd).dedup).length

/-- The transport events handled by the connection handler. -/
inductive WsEvent where
  | register (ws : Nat) (memberId : String)
  | close (ws : Nat)
  | error (ws : Nat)
deriving DecidableEq, Repr

/-- The connection handler of routes.ts: a `register` message with a truthy
member id binds the connection and broadcasts the updated online count; a
clean close removes the binding and broadcasts the updated count; a
transport error removes the binding (and broadcasts nothing). -/
def presenceStep (m : PresenceMap) (e : WsEvent) : PresenceMap × List BEvent :=
  match e with
  | .register ws memberId =>
    if memberId != "" then
      let m' := wsSet m ws memberId
      (m', [.onlineCount (getOnlineCount m')])
    else (m, [])
  | .close ws =>
    let m' := wsDelete m ws
    (m', [.onlineCount (getOnlineCount m')])
  | .error ws => (wsDelete m ws, [])

/-! ## Claim C5 — presence mutations and the online-count broadcast -/

/-- C5 counterexample: a transport error mutates the presence map (the
binding of connection 0 is removed) but, unlike `register` and `close`,
the handler broadcasts nothing — no `online_count` event is emitted. -/
theorem C5_error_mutation_without_broadcast :
    (presenceStep [(0, "a")] (.error 0)).1 ≠ [(0, "a")]
    ∧ (presenceStep [(0, "a")] (.error 0)).2 = [] := by
  decide

/-- C5 (amended): a `register` message with a truthy member id and a clean
close broadcast the updated distinct online count after mutating the map;
a transport error removes the binding without broadcasting anything; the
online count is the number of distinct member ids currently mapped. -/
theorem C5_presence_broadcasts (m : PresenceMap) (ws : Nat) (memberId : String)
    (h : memberId ≠ "") :
    presenceStep m (.register ws memberId)
      = (wsSet m ws memberId, [.onlineCount (getOnlineCount (wsSet m ws memberId))])
    ∧ presenceStep m (.close ws)
      = (wsDelete m ws, [.onlineCount (getOnlineCount (wsDelete m ws))])
    ∧ presenceStep m (.error ws) = (wsDelete m ws, [])
    ∧ getOnlineCount m = (m.map Prod.snd).toFinset.card := by
  refine ⟨?_, rfl, rfl, ?_⟩
  · have hb : (memberId != "") = true := by simpa [bne_iff_ne] using h
    simp [presenceStep, hb]
  · rw [getOnlineCount, List.card_toFinset]

/-- C5 witness: two connections registering the same member yield a single
broadcast count of 1. -/
theorem C5_presence_broadcasts_witness :
    presenceStep [(0, "a")] (.register 1 "a") = ([(0, "a"), (1, "a")], [.onlineCount 1]) :=
  ((C5_presence_broadcasts [(0, "a")] 1 "a" (by decide)).1).trans (by decide)

/-! ## Claim C8 — soft delete, pinning and the deleted-implies-unpinned invariant -/

/-- No message is simultaneously soft-deleted and pinned. -/
def noDeletedPinned (ms : List Message) : Bool :=
  ms.all (fun m => !(m.isDeleted && m.isPinned))

/-- A message row used in the C8 counterexample. -/
def c8Msg : Message :=
  { id := "m1", senderId := "u1", content := some "hello", type := "text",
    fileUrl := none, fileName := none, isPinned := false, isDeleted := false,
    replyToId := none, mentions := none, createdAt := 0 }

/-- C8 counterexample: starting from an active message, soft-deleting it and
then toggling its pin yields a state whose message is simultaneously
soft-deleted and pinned — `pinMessage` does not check the deleted flag, so
the invariant is not maintained under arbitrary delete/pin sequences. -/
theorem C8_delete_then_pin_violates :
    (pinMessage (deleteMessage [c8Msg] "m1") "m1").any
      (fun m => m.isDeleted && m.isPinned) = true := by
  decide

/-- C8 (amended): soft delete sets the deleted flag and clears the pinned
flag in the same single row update, removes no row and changes no other
row, and preserves the deleted-implies-unpinned invariant; the pin toggle
preserves the invariant only when the target message is not already
deleted (the counterexample shows delete-then-pin breaks it). -/
theorem C8_soft_delete_clears_pin (ms : List Message) (id : String) :
    ((deleteMessage ms id).map Message.id = ms.map Message.id)
    ∧ ((deleteMessage ms id).length = ms.length)
    ∧ (∀ m ∈ deleteMessage ms id, m.id = id → m.isDeleted = true ∧ m.isPinned = false)
    ∧ (∀ m ∈ deleteMessage ms id, m.id ≠ id → m ∈ ms)
    ∧ (noDeletedPinned ms = true → noDeletedPinned (deleteMessage ms id) = true)
    ∧ (noDeletedPinned ms = true → (∀ m ∈ ms, m.id = id → m.isDeleted = false) →
        noDeletedPinned (pinMessage ms id) = true) := by
  refine ⟨?_, ?_, ?_, ?_, ?_, ?_⟩
  · simp only [deleteMessage, List.map_map]
    apply List.map_congr_left
    intro m _
    simp only [Function.comp_apply]
    split <;> rfl
  · simp [deleteMessage]
  · intro m hm hid
    simp only [deleteMessage, List.mem_map] at hm
    obtain ⟨a, _, ha⟩ := hm
    by_cases h : a.id == id
    · rw [if_pos h] at ha
      cases ha
      exact ⟨rfl, rfl⟩
    · rw [if_neg h] at ha
      cases ha
      exact absurd (by simpa using hid) (by simpa using h)
  · intro m hm hid
    simp only [deleteMessage, List.mem_map] at hm
    obtain ⟨a, hmem, ha⟩ := hm
    by_cases h : a.id == id
    · rw [if_pos h] at ha
      cases ha
      exact absurd (by simpa using h) hid
    · rw [if_neg h] at ha
      cases ha
      exact hmem
  · intro hinv
    simp only [noDeletedPinned, deleteMessage, List.all_eq_true, List.mem_map] at hinv ⊢
    rintro x ⟨a, hmem, rfl⟩
    by_cases h : a.id == id
    · simp [h]
    · simpa [h] using hinv a hmem
  · intro hinv hnd
    simp only [pinMessage]
    cases hget : getMessage ms id with
    | none => exact hinv
    | some msg =>
      simp only [noDeletedPinned, List.all_eq_true, List.mem_map] at hinv ⊢
      rintro x ⟨a, hmem, rfl⟩
      by_cases h : a.id == id
      · have : a.isDeleted = false := hnd a hmem (by simpa using h)
        simp [h, this]
      · simpa [h] using hinv a hmem

/-- C8 witness: the amended invariant preservation at a concrete store. -/
theorem C8_soft_delete_clears_pin_witness :
    noDeletedPinned (deleteMessage [c8Msg] "m1") = true
    ∧ noDeletedPinned (pinMessage [c8Msg] "m1") = true :=
  ⟨(C8_soft_delete_clears_pin [c8Msg] "m1").2.2.2.2.1 (by decide),
   (C8_soft_delete_clears_pin [c8Msg] "m1").2.2.2.2.2 (by decide)
     (by intro m hm _; simp at hm; subst hm; decide)⟩

/-! ## Success characterizations of the two send routes -/

/-- A successful `POST /api/messages` returns exactly the built text-message
row. -/
theorem postMessage_ok_eq (now : Int) (st : Store) (senderId : String) (body : TextBody)
    (newMsgId : String) (m : Message)
    (h : (postMessage now st senderId body newMsgId).1 = .ok m) :
    m = builtTextMessage now senderId body newMsgId := by
  simp only [postMessage] at h
  cases hg : getMember st.members senderId with
  | none => rw [hg] at h; simp at h
  | some sender =>
    rw [hg] at h
    repeat' split at h
    all_goals first | (simp at h; exact h.symm) | simp at h

/-- A successful `POST /api/messages/upload` returns exactly the built
file-message row. -/
theorem postUpload_ok_eq (now : Int) (st : Store) (senderId : String) (file : UploadFile)
    (replyToIdRaw : Option String) (newMsgId : String) (m : Message)
    (h : (postUpload now st senderId file replyToIdRaw newMsgId).1 = .ok m) :
    m = builtFileMessage now senderId file replyToIdRaw newMsgId := by
  simp only [postUpload] at h
  cases hg : getMember st.members senderId with
  | none => rw [hg] at h; simp at h
  | some sender =>
    rw [hg] at h
    repeat' split at h
    all_goals first | (simp at h; exact h.symm) | simp at h

/-! ## Claim C6 — the checks applied to file-message sends -/

/-- A plain member used in the C6 counterexample. -/
def c6Member : Member :=
  { id := "u1", name := "Uma", phone := "9999999999", role := "member",
    isActive := true, restrictedUntil := none, firstLoginAt := none }

/-- A store whose chat is disabled but whose member file sending is
enabled. -/
def c6Store : Store :=
  { members := [c6Member], messages := [], notifications := [], reactions := [],
    settings := { chatDisabled := true, disappearAfterHours := none,
                  memberFileSendDisabled := false, phoneNumberFilterEnabled := false },
    keywords := [] }

/-- C6 counterexample: with chat globally disabled, an unrestricted plain
member's file upload is accepted — the upload route never consults the
chat-disabled flag, contradicting the claim that the same chat-disabled
check applies to file sends. -/
theorem C6_upload_ignores_chat_disabled :
    c6Store.settings.chatDisabled = true
    ∧ isAdminRole c6Member.role = false
    ∧ isRestricted c6Member 0 = false
    ∧ getMember c6Store.members "u1" = some c6Member
    ∧ (postUpload 0 c6Store "u1" ⟨"a.png", "f.png", "image/png"⟩ none "m1").1.isOk = true := by
  decide

/-- C6 (amended): a file send applies the restriction check and then the
member-file-send-disabled check (bypassed by admin/sub-admin); once those
pass it succeeds regardless of the chat-disabled flag and of the stored
keywords — no chat-disabled, keyword or phone check applies to file
messages. -/
theorem C6_upload_checks (now : Int) (st : Store) (senderId newMsgId : String)
    (sender : Member) (file : UploadFile) (replyToIdRaw : Option String)
    (hs : getMember st.members senderId = some sender) :
    (isRestricted sender now = true →
       postUpload now st senderId file replyToIdRaw newMsgId = (.rejected .restricted, st, []))
    ∧ (isRestricted sender now = false → st.settings.memberFileSendDisabled = true →
        isAdminRole sender.role = false →
        postUpload now st senderId file replyToIdRaw newMsgId
          = (.rejected .fileSendDisabled, st, []))
    ∧ (isRestricted sender now = false →
        (st.settings.memberFileSendDisabled = false ∨ isAdminRole sender.role = true) →
        (postUpload now st senderId file replyToIdRaw newMsgId).1.isOk = true) := by
  refine ⟨?_, ?_, ?_⟩
  · intro h1
    simp [postUpload, hs, h1]
  · intro h1 h2 h3
    simp [postUpload, hs, h1, h2, h3]
  · intro h1 h2
    rcases h2 with h2 | h2 <;> simp [postUpload, hs, h1, h2, SendResult.isOk]

/-- A restricted member used in the C6 witness. -/
def c6wMember : Member :=
  { id := "w1", name := "Wes", phone := "8888888888", role := "member",
    isActive := true, restrictedUntil := some 10, firstLoginAt := none }

/-- A store containing the restricted member. -/
def c6wStore : Store :=
  { members := [c6wMember], messages := [], notifications := [], reactions := [],
    settings := { chatDisabled := false, disappearAfterHours := none,
                  memberFileSendDisabled := false, phoneNumberFilterEnabled := false },
    keywords := [] }

/-- C6 witness: a restricted member's upload is rejected with the
restriction reason and nothing changes. -/
theorem C6_upload_checks_witness :
    postUpload 0 c6wStore "w1" ⟨"a.pdf", "f.pdf", "application/pdf"⟩ none "m9"
      = (.rejected .restricted, c6wStore, []) :=
  (C6_upload_checks 0 c6wStore "w1" "m9" c6wMember
      ⟨"a.pdf", "f.pdf", "application/pdf"⟩ none (by decide)).1 (by decide)

/-! ## Claim C9 — the message shape invariant -/

/-- The shape invariant of the data model: `content` is null for non-text
types and `fileUrl` is null for the text type. -/
def msgShapeOk (m : Message) : Bool :=
  (m.type == "text" || m.content == none) && (m.type != "text" || m.fileUrl == none)

/-- The primary admin used in the C9 counterexample. -/
def c9Admin : Member :=
  { id := "a1", name := "Admin", phone := "7030809030", role := "admin",
    isActive := true, restrictedUntil := none, firstLoginAt := none }

/-- A store containing only the primary admin. -/
def c9Store : Store :=
  { members := [c9Admin], messages := [], notifications := [], reactions := [],
    settings := { chatDisabled := false, disappearAfterHours := none,
                  memberFileSendDisabled := false, phoneNumberFilterEnabled := false },
    keywords := [] }

/-- A request body supplying both text content and a file url. -/
def c9Body : TextBody :=
  { content := some "hi", type := some "text", fileUrl := some "/uploads/x.png",
    fileName := none, replyToId := none }

/-- The message the text route creates for `c9Body`. -/
def c9BadMsg : Message :=
  { id := "m1", senderId := "a1", content := some "hi", type := "text",
    fileUrl := some "/uploads/x.png", fileName := none, isPinned := false,
    isDeleted := false, replyToId := none, mentions := none, createdAt := 0 }

/-- C9 counterexample: the text route passes a client-supplied `fileUrl`
through, so an accepted text send can create a message of type `"text"`
with a non-null `fileUrl`, violating the shape invariant. -/
theorem C9_text_route_shape_violation :
    (postMessage 0 c9Store "a1" c9Body "m1").1 = .ok c9BadMsg
    ∧ msgShapeOk c9BadMsg = false := by
  decide

/-- C9 (amended): every message created by the upload route satisfies the
shape invariant; a message created by the text route satisfies it only
when the request leaves `fileUrl` unset (falsy) while the type defaults to
text, or supplies no content for a non-text type — the route passes
`type`, `content` and `fileUrl` through unchecked. -/
theorem C9_message_shape (now : Int) (st : Store) (senderId newMsgId : String) :
    (∀ (file : UploadFile) (replyToIdRaw : Option String) (m : Message),
        (postUpload now st senderId file replyToIdRaw newMsgId).1 = .ok m →
        msgShapeOk m = true)
    ∧ (∀ (body : TextBody) (m : Message),
        (postMessage now st senderId body newMsgId).1 = .ok m →
        jsOrStr body.type "text" = "text" → jsOrNull body.fileUrl = none →
        msgShapeOk m = true)
    ∧ (∀ (body : TextBody) (m : Message),
        (postMessage now st senderId body newMsgId).1 = .ok m →
        jsOrStr body.type "text" ≠ "text" → body.content = none →
        msgShapeOk m = true) := by
  refine ⟨?_, ?_, ?_⟩
  · intro file replyToIdRaw m h
    rw [postUpload_ok_eq now st senderId file replyToIdRaw newMsgId m h]
    simp only [msgShapeOk, builtFileMessage]
    split <;> simp
  · intro body m h htype hfu
    rw [postMessage_ok_eq now st senderId body newMsgId m h]
    simp [msgShapeOk, builtTextMessage, htype, hfu]
  · intro body m h htype hct
    rw [postMessage_ok_eq now st senderId body newMsgId m h]
    simp [msgShapeOk, builtTextMessage, htype, hct]

/-- A well-formed text body for the C9 witness. -/
def c9GoodBody : TextBody :=
  { content := some "hi there", type := none, fileUrl := none,
    fileName := none, replyToId := none }

/-- C9 witness: the text message built for a request without a file url
satisfies the shape invariant. -/
theorem C9_message_shape_witness :
    msgShapeOk (builtTextMessage 0 "a1" c9GoodBody "m2") = true :=
  (C9_message_shape 0 c9Store "a1" "m2").2.1 c9GoodBody
    (builtTextMessage 0 "a1" c9GoodBody "m2") (by decide) (by decide) (by decide)

/-! ## Claim C1 — the text-send policy pipeline -/

/-- C1: the policy checks of `POST /api/messages` run in a fixed order with
the first failure winning: an active restriction rejects regardless of
role; then chat-disabled rejects non-admins; then, for non-admins with
truthy content, a blocked-keyword substring match rejects; then the
enabled phone filter rejects on the phone heuristic. Admin/sub-admin
senders bypass the keyword and phone checks entirely (an unrestricted
admin always succeeds), and every rejection leaves the store unchanged
and broadcasts nothing. -/
theorem C1_policy_pipeline (now : Int) (st : Store) (senderId newMsgId : String)
    (body : TextBody) (sender : Member)
    (hs : getMember st.members senderId = some sender) :
    (isRestricted sender now = true →
       postMessage now st senderId body newMsgId = (.rejected .restricted, st, []))
    ∧ (isRestricted sender now = false → st.settings.chatDisabled = true →
        isAdminRole sender.role = false →
        postMessage now st senderId body newMsgId = (.rejected .chatDisabled, st, []))
    ∧ (isRestricted sender now = false → st.settings.chatDisabled = false →
        isAdminRole sender.role = false → strTruthy body.content = true →
        st.keywords.any (fun k => strContains (strToLower (body.content.getD "")) k) = true →
        postMessage now st senderId body newMsgId = (.rejected .keywordBlocked, st, []))
    ∧ (isRestricted sender now = false → st.settings.chatDisabled = false →
        isAdminRole sender.role = false → strTruthy body.content = true →
        st.keywords.any (fun k => strContains (strToLower (body.content.getD "")) k) = false →
        st.settings.phoneNumberFilterEnabled = true →
        containsPhoneNumber (body.content.getD "") = true →
        postMessage now st senderId body newMsgId = (.rejected .phoneBlocked, st, []))
    ∧ (isAdminRole sender.role = true → isRestricted sender now = false →
        (postMessage now st senderId body newMsgId).1.isOk = true)
    ∧ (∀ r, (postMessage now st senderId body newMsgId).1 = .rejected r →
        (postMessage now st senderId body newMsgId).2.1 = st
        ∧ (postMessage now st senderId body newMsgId).2.2 = []) := by
  refine ⟨?_, ?_, ?_, ?_, ?_, ?_⟩
  · intro h1
    simp [postMessage, hs, h1]
  · intro h1 h2 h3
    simp [postMessage, hs, h1, h2, h3]
  · intro h1 h2 h3 h4 h5
    simp [postMessage, hs, h1, h2, h3, h4, h5]
  · intro h1 h2 h3 h4 h5 h6 h7
    simp [postMessage, hs, h1, h2, h3, h4, h5, h6, h7]
  · intro h1 h2
    simp [postMessage, hs, h1, h2, SendResult.isOk]
  · intro r hr
    cases h1 : isRestricted sender now
    · cases h2 : st.settings.chatDisabled && !isAdminRole sender.role
      · cases h3 : strTruthy body.content && !isAdminRole sender.role
        · rw [postMessage] at hr
          simp only [hs, h1, h2, h3] at hr
          simp at hr
        · cases h4 : st.keywords.any
              (fun k => strContains (strToLower (body.content.getD "")) k)
          · cases h5 : st.settings.phoneNumberFilterEnabled
                && containsPhoneNumber (body.content.getD "")
            · rw [postMessage] at hr
              simp only [hs, h1, h2, h3, h4, h5] at hr
              simp at hr
            · simp [postMessage, hs, h1, h2, h3, h4, h5]
          · simp [postMessage, hs, h1, h2, h3, h4]
      · simp [postMessage, hs, h1, h2]
    · simp [postMessage, hs, h1]

/-- A plain member with an active restriction, for the C1 witness. -/
def c1Member : Member :=
  { id := "r1", name := "Ria", phone := "7777777777", role := "member",
    isActive := true, restrictedUntil := some 1000, firstLoginAt := none }

/-- A store containing the restricted member. -/
def c1Store : Store :=
  { members := [c1Member], messages := [], notifications := [], reactions := [],
    settings := { chatDisabled := false, disappearAfterHours := none,
                  memberFileSendDisabled := false, phoneNumberFilterEnabled := false },
    keywords := ["spam"] }

/-- C1 witness: the restricted member's send is rejected first, with no
persistence and no broadcast. -/
theorem C1_policy_pipeline_witness :
    postMessage 0 c1Store "r1" ⟨some "hello", none, none, none, none⟩ "m1"
      = (.rejected .restricted, c1Store, []) :=
  (C1_policy_pipeline 0 c1Store "r1" "m1" ⟨some "hello", none, none, none, none⟩
      c1Member (by decide)).1 (by decide)

/-! ## Claim C10 — the phone-number filter end to end -/

/-- C10: (1) any text whose cleaned form (whitespace, parentheses, hyphens,
periods and plus signs stripped) contains ten or more consecutive digits
matches the phone heuristic; (2) a non-admin sender passing the earlier
checks is rejected with the phone-leak reason on such content when the
filter is enabled, with no persistence and no broadcast; (3) an
unrestricted admin sending any content — in particular the identical text —
is accepted and a `new_message` event for the created message is the first
broadcast. -/
theorem C10_phone_filter (now : Int) (st : Store) (senderId newMsgId : String)
    (body : TextBody) (sender : Member)
    (hs : getMember st.members senderId = some sender) :
    (∀ t : String, hasDigitRun10 (cleanPhoneText t) = true → containsPhoneNumber t = true)
    ∧ (isRestricted sender now = false → st.settings.chatDisabled = false →
        isAdminRole sender.role = false → strTruthy body.content = true →
        st.keywords.any (fun k => strContains (strToLower (body.content.getD "")) k) = false →
        st.settings.phoneNumberFilterEnabled = true →
        hasDigitRun10 (cleanPhoneText (body.content.getD "")) = true →
        postMessage now st senderId body newMsgId = (.rejected .phoneBlocked, st, []))
    ∧ (sender.role = "admin" → isRestricted sender now = false →
        (postMessage now st senderId body newMsgId).1
            = .ok (builtTextMessage now senderId body newMsgId)
          ∧ ((postMessage now st senderId body newMsgId).2.2).head?
            = some (.newMessage (builtTextMessage now senderId body newMsgId))) := by
  refine ⟨?_, ?_, ?_⟩
  · intro t ht
    simp [containsPhoneNumber, ht]
  · intro h1 h2 h3 h4 h5 h6 h7
    have hph : containsPhoneNumber (body.content.getD "") = true := by
      simp [containsPhoneNumber, h7]
    simp [postMessage, hs, h1, h2, h3, h4, h5, h6, hph]
  · intro hrole h1
    have hadm : isAdminRole sender.role = true := by simp [isAdminRole, hrole]
    constructor <;> simp [postMessage, hs, h1, hadm]

/-- The plain member of the C10 witness scenario, phone 9876543210. -/
def c10Member : Member :=
  { id := "u1", name := "Uli", phone := "9876543210", role := "member",
    isActive := true, restrictedUntil := none, firstLoginAt := none }

/-- The primary admin of the C10 witness scenario. -/
def c10Admin : Member :=
  { id := "a1", name := "Admin", phone := "7030809030", role := "admin",
    isActive := true, restrictedUntil := none, firstLoginAt := none }

/-- A store with the phone filter enabled and no blocked keywords. -/
def c10Store : Store :=
  { members := [c10Member, c10Admin], messages := [], notifications := [],
    reactions := [],
    settings := { chatDisabled := false, disappearAfterHours := none,
                  memberFileSendDisabled := false, phoneNumberFilterEnabled := true },
    keywords := [] }

/-- The body carrying the leaked phone number. -/
def c10Body : TextBody :=
  { content := some "Call me at 9876543210", type := none, fileUrl := none,
    fileName := none, replyToId := none }

/-- C10 witness: the member's send of "Call me at 9876543210" is rejected
with the phone-leak reason while the primary admin's identical send is
accepted and broadcast as a `new_message`. -/
theorem C10_phone_filter_witness :
    postMessage 0 c10Store "u1" c10Body "m1" = (.rejected .phoneBlocked, c10Store, [])
    ∧ (postMessage 0 c10Store "a1" c10Body "m2").1
        = .ok (builtTextMessage 0 "a1" c10Body "m2")
    ∧ ((postMessage 0 c10Store "a1" c10Body "m2").2.2).head?
        = some (.newMessage (builtTextMessage 0 "a1" c10Body "m2")) := by
  refine ⟨?_, ?_, ?_⟩
  · exact (C10_phone_filter 0 c10Store "u1" "m1" c10Body c10Member (by decide)).2.1
      (by decide) (by decide) (by decide) (by decide) (by decide) (by decide) (by decide)
  · exact ((C10_phone_filter 0 c10Store "a1" "m2" c10Body c10Admin (by decide)).2.2
      (by decide) (by decide)).1
  · exact ((C10_phone_filter 0 c10Store "a1" "m2" c10Body c10Admin (by decide)).2.2
      (by decide) (by decide)).2

/-! ## Claim C2 — the per-viewer visibility filter -/

/-- The viewer of the C2 counterexample. -/
def c2Viewer : Member :=
  { id := "v", name := "Vi", phone := "6666666666", role := "member",
    isActive := true, restrictedUntil := none, firstLoginAt := none }

/-- A day-old, unpinned message. -/
def c2Msg : Message :=
  { id := "m1", senderId := "v", content := some "old", type := "text",
    fileUrl := none, fileName := none, isPinned := false, isDeleted := false,
    replyToId := none, mentions := none, createdAt := 0 }

/-- A store whose disappearing window is the stored value 0. -/
def c2Store : Store :=
  { members := [c2Viewer], messages := [c2Msg], notifications := [], reactions := [],
    settings := { chatDisabled := false, disappearAfterHours := some 0,
                  memberFileSendDisabled := false, phoneNumberFilterEnabled := false },
    keywords := [] }

/-- C2 counterexample: with a configured (non-null) window of 0 hours, a
non-pinned message older than `now - 0` is still returned — the route
tests the window with JavaScript truthiness, so a stored 0 disables the
filter, contradicting the claim for every non-null hour count. (A stored 0
is reachable: PATCH /api/chat-settings/disappear with hours 0.5 passes the
null/zero guard and stores parseInt(0.5) = 0.) -/
theorem C2_zero_window_not_applied :
    c2Store.settings.disappearAfterHours = some 0
    ∧ c2Msg.isPinned = false
    ∧ c2Msg.createdAt < 86400000 - 0 * 3600000
    ∧ c2Msg ∈ getMessagesFor 86400000 c2Store "v" := by
  decide

/-- The visibility filter only ever removes messages from the stored list. -/
theorem getMessagesFor_sublist (now : Int) (st : Store) (viewerId : String) :
    List.Sublist (getMessagesFor now st viewerId) st.messages := by
  rw [getMessagesFor]
  repeat' split
  all_goals repeat' refine List.Sublist.trans (List.filter_sublist _) ?_
  all_goals exact List.Sublist.refl _

/-- C2 (amended): for a viewer found in the roster, the returned list
contains exactly the stored messages that are not soft-deleted, that — when
a disappearing window with a nonzero hour count is configured — are pinned
or no older than `now - window`, and that — when the viewer is a
non-admin/sub-admin with a recorded first login — are pinned or not created
before that first login; admin/sub-admin viewers are exempt from the
first-login cutoff only. The creation-time ordering of the stored list is
preserved. -/
theorem C2_visibility (now : Int) (st : Store) (viewerId : String) (viewer : Member)
    (hv : getMember st.members viewerId = some viewer) :
    (∀ m, m ∈ getMessagesFor now st viewerId ↔
       (m ∈ st.messages ∧ m.isDeleted = false
        ∧ (∀ h : Int, st.settings.disappearAfterHours = some h → h ≠ 0 →
             (m.isPinned = true ∨ now - h * 3600000 ≤ m.createdAt))
        ∧ (∀ t : Int, viewer.firstLoginAt = some t → isAdminRole viewer.role = false →
             (m.isPinned = true ∨ t ≤ m.createdAt))))
    ∧ (List.Pairwise (fun a b : Message => a.createdAt ≤ b.createdAt) st.messages →
        List.Pairwise (fun a b : Message => a.createdAt ≤ b.createdAt)
          (getMessagesFor now st viewerId)) := by
  constructor
  · intro m
    cases hd : st.settings.disappearAfterHours with
    | none =>
      cases hf : viewer.firstLoginAt with
      | none =>
        simp [getMessagesFor, hv, hd, hf, List.mem_filter]
      | some t =>
        cases ha : isAdminRole viewer.role with
        | false =>
          simp [getMessagesFor, hv, hd, hf, ha, List.mem_filter, and_assoc] <;> tauto
        | true =>
          simp [getMessagesFor, hv, hd, hf, ha, List.mem_filter]
    | some h =>
      by_cases hz : h = 0
      · subst hz
        cases hf : viewer.firstLoginAt with
        | none =>
          simp [getMessagesFor, hv, hd, hf, List.mem_filter]
        | some t =>
          cases ha : isAdminRole viewer.role with
          | false =>
            simp [getMessagesFor, hv, hd, hf, ha, List.mem_filter, and_assoc] <;> tauto
          | true =>
            simp [getMessagesFor, hv, hd, hf, ha, List.mem_filter]
      · cases hf : viewer.firstLoginAt with
        | none =>
          simp [getMessagesFor, hv, hd, hf, hz, List.mem_filter, and_assoc] <;> tauto
        | some t =>
          cases ha : isAdminRole viewer.role with
          | false =>
            simp [getMessagesFor, hv, hd, hf, ha, hz, List.mem_filter, and_assoc] <;> tauto
          | true =>
            simp [getMessagesFor, hv, hd, hf, ha, hz, List.mem_filter, and_assoc] <;> tauto
  · intro hp
    exact hp.sublist (getMessagesFor_sublist now st viewerId)

/-- The admin viewer of the C2 witness. -/
def c2wAdmin : Member :=
  { id := "a", name := "Ada", phone := "7030809030", role := "admin",
    isActive := true, restrictedUntil := none, firstLoginAt := some 50 }

/-- A pinned old message and a newer plain message. -/
def c2wPinned : Message :=
  { id := "p1", senderId := "a", content := some "pinned", type := "text",
    fileUrl := none, fileName := none, isPinned := true, isDeleted := false,
    replyToId := none, mentions := none, createdAt := 0 }

/-- A store with a 24-hour disappearing window. -/
def c2wStore : Store :=
  { members := [c2wAdmin], messages := [c2wPinned], notifications := [], reactions := [],
    settings := { chatDisabled := false, disappearAfterHours := some 24,
                  memberFileSendDisabled := false, phoneNumberFilterEnabled := false },
    keywords := [] }

/-- C2 witness: a pinned message older than the 24-hour window is still
visible to an admin viewer two days later. -/
theorem C2_visibility_witness :
    c2wPinned ∈ getMessagesFor 172800000 c2wStore "a" :=
  ((C2_visibility 172800000 c2wStore "a" c2wAdmin (by decide)).1 c2wPinned).mpr
    (by refine ⟨by decide, by decide, ?_, ?_⟩
        · intro h hh _
          cases hh
          exact Or.inl (by decide)
        · intro t ht _
          cases ht
          exact Or.inl (by decide))

/-! ## Claim C4 — reaction toggling -/

/-- At most one reaction per (message, member) pair. -/
def atMostOnePerPair (rs : List Reaction) : Prop :=
  ∀ mid uid, (pairReactions rs mid uid).length ≤ 1

/-- `n` consecutive toggles of the same emoji by the same member on the same
message, starting from the absent state (fresh primary keys `0, 1, ...`). -/
def iterToggle (mid uid e : String) : Nat → List Reaction
  | 0 => []
  | n + 1 => toggleReaction n (iterToggle mid uid e n) mid uid e

theorem pairReactions_append (rs ts : List Reaction) (mid uid : String) :
    pairReactions (rs ++ ts) mid uid = pairReactions rs mid uid ++ pairReactions ts mid uid := by
  simp [pairReactions, List.filter_append]

theorem pairReactions_filter (rs : List Reaction) (q : Reaction → Bool) (mid uid : String) :
    pairReactions (rs.filter q) mid uid = (pairReactions rs mid uid).filter q := by
  simp only [pairReactions, List.filter_filter]
  congr 1
  funext r
  rw [Bool.and_comm]

theorem iterToggle_spec (mid uid e : String) : ∀ k : Nat,
    iterToggle mid uid e (2 * k) = []
    ∧ iterToggle mid uid e (2 * k + 1) = [⟨2 * k, mid, uid, e⟩] := by
  intro k
  induction k with
  | zero =>
    constructor
    · rfl
    · simp [iterToggle, toggleReaction, pairReactions]
  | succ k ih =>
    have h2 : 2 * (k + 1) = (2 * k + 1) + 1 := by omega
    have heven : iterToggle mid uid e (2 * (k + 1)) = [] := by
      rw [h2]
      show toggleReaction (2 * k + 1) (iterToggle mid uid e (2 * k + 1)) mid uid e = []
      rw [ih.2]
      simp [toggleReaction, pairReactions]
    constructor
    · exact heven
    · show toggleReaction (2 * (k + 1)) (iterToggle mid uid e (2 * (k + 1))) mid uid e
        = [⟨2 * (k + 1), mid, uid, e⟩]
      rw [heven]
      simp [toggleReaction, pairReactions]

/-- C4: (1) the toggle preserves the at-most-one-reaction-per-pair
invariant; (2) starting from the absent state, `n` toggles of the same
emoji leave the pair holding exactly one reaction when `n` is odd and none
when `n` is even; (3) toggling a different emoji than the stored one
replaces it: the old row is removed and a single row with the new emoji
remains. -/
theorem C4_reaction_toggle (mid uid e : String) :
    (∀ (freshId : Nat) (rs : List Reaction), atMostOnePerPair rs →
       atMostOnePerPair (toggleReaction freshId rs mid uid e))
    ∧ (∀ k : Nat, iterToggle mid uid e (2 * k) = []
        ∧ iterToggle mid uid e (2 * k + 1) = [⟨2 * k, mid, uid, e⟩])
    ∧ (∀ (freshId : Nat) (rs : List Reaction) (r0 : Reaction),
        pairReactions rs mid uid = [r0] → r0.emoji ≠ e →
        pairReactions (toggleReaction freshId rs mid uid e) mid uid
          = [⟨freshId, mid, uid, e⟩]) := by
  refine ⟨?_, iterToggle_spec mid uid e, ?_⟩
  · intro freshId rs hinv mid' uid'
    cases hp : pairReactions rs mid uid with
    | nil =>
      simp only [toggleReaction, hp]
      rw [pairReactions_append, List.length_append]
      cases hb : ((mid == mid') && (uid == uid')) with
      | true =>
        obtain ⟨hm, hu⟩ := by simpa using hb
        subst hm
        subst hu
        rw [hp]
        simp [pairReactions, List.filter_singleton]
      | false =>
        have hone : pairReactions [(⟨freshId, mid, uid, e⟩ : Reaction)] mid' uid' = [] := by
          simp only [pairReactions, List.filter_singleton]
          simp only [hb]
          rfl
        rw [hone]
        simpa using hinv mid' uid'
    | cons e0 rest =>
      simp only [toggleReaction, hp]
      have hlen : (pairReactions (rs.filter (fun r => r.id != e0.id)) mid' uid').length ≤ 1 := by
        rw [pairReactions_filter]
        exact le_trans (List.length_filter_le _ _) (hinv mid' uid')
      split
      · exact hlen
      · rw [pairReactions_append, List.length_append]
        cases hb : ((mid == mid') && (uid == uid')) with
        | true =>
          obtain ⟨hm, hu⟩ := by simpa using hb
          subst hm
          subst hu
          have hr : rest = [] := by
            have h1 := hinv mid uid
            rw [hp] at h1
            simp only [List.length_cons] at h1
            exact List.length_eq_zero.mp (by omega)
          have hzero : pairReactions (rs.filter (fun r => r.id != e0.id)) mid uid = [] := by
            rw [pairReactions_filter, hp, hr]
            simp
          rw [hzero]
          simp [pairReactions, List.filter_singleton]
        | false =>
          have hone : pairReactions [(⟨freshId, mid, uid, e⟩ : Reaction)] mid' uid' = [] := by
            simp only [pairReactions, List.filter_singleton]
            simp only [hb]
            rfl
          rw [hone]
          simpa using hlen
  · intro freshId rs r0 hpair hne
    have hbe : (r0.emoji == e) = false := by simpa using hne
    simp only [toggleReaction, hpair, hbe, Bool.false_eq_true, if_false]
    rw [pairReactions_append, pairReactions_filter, hpair]
    simp [pairReactions, List.filter_singleton]

/-- C4 witness: toggling emoji "y" over a stored "x" replaces it. -/
theorem C4_reaction_toggle_witness :
    pairReactions (toggleReaction 7 [⟨5, "m1", "u1", "x"⟩] "m1" "u1" "y") "m1" "u1"
      = [⟨7, "m1", "u1", "y"⟩] :=
  (C4_reaction_toggle "m1" "u1" "y").2.2 7 [⟨5, "m1", "u1", "x"⟩] ⟨5, "m1", "u1", "x"⟩
    (by decide) (by decide)

/-! ## Claim C7 — protection of the primary admin against sub-admins -/

/-- Soft-deleting one id rewrites the row lookup pointwise. -/
theorem getMessage_deleteMessage (ms : List Message) (did mid : String) :
    getMessage (deleteMessage ms did) mid
      = (getMessage ms mid).map
          (fun m => if m.id == did then { m with isDeleted := true, isPinned := false } else m) := by
  induction ms with
  | nil => rfl
  | cons m rest ih =>
    simp only [deleteMessage, List.map_cons, getMessage, List.find?_cons]
    have hid : (if (m.id == did) = true
        then ({ m with isDeleted := true, isPinned := false } : Message) else m).id = m.id := by
      split <;> rfl
    rw [hid]
    cases hm : m.id == mid with
    | true => simp
    | false => simpa [getMessage, deleteMessage] using ih

/-- A sub-admin requester always skips a message sent by the member with
the primary-admin phone. -/
theorem bulkSkip_primary (requester : Member) (roster : List Member) (msg : Message)
    (sender : Member) (hrole : requester.role = "sub-admin")
    (hsender : getMember roster msg.senderId = some sender)
    (hphone : sender.phone = PRIMARY_ADMIN_PHONE) :
    bulkSkip requester roster msg = true := by
  simp [bulkSkip, hrole, hsender, hphone]

/-- The bulk-delete loop never touches a message whose sender holds the
primary-admin phone when the requester is a sub-admin. -/
theorem bulkFold_preserves (requester : Member) (roster : List Member) (msg : Message)
    (sender : Member) (hrole : requester.role = "sub-admin")
    (hsender : getMember roster msg.senderId = some sender)
    (hphone : sender.phone = PRIMARY_ADMIN_PHONE) :
    ∀ (ids : List String) (acc : List Message × Nat × Nat),
      getMessage acc.1 msg.id = some msg →
      getMessage (ids.foldl (bulkStep requester roster) acc).1 msg.id = some msg := by
  intro ids
  induction ids with
  | nil => intro acc h; simpa using h
  | cons i is ih =>
    intro acc h
    rw [List.foldl_cons]
    apply ih
    cases hg : getMessage acc.1 i with
    | none =>
      have hb : bulkStep requester roster acc i = acc := by
        simp [bulkStep, hg]
      rw [hb]
      exact h
    | some message =>
      cases hsk : bulkSkip requester roster message with
      | true =>
        have hb : bulkStep requester roster acc i = (acc.1, acc.2.1, acc.2.2 + 1) := by
          simp [bulkStep, hg, hsk]
        rw [hb]
        exact h
      | false =>
        have hb : bulkStep requester roster acc i
            = (deleteMessage acc.1 i, acc.2.1 + 1, acc.2.2) := by
          simp [bulkStep, hg, hsk]
        rw [hb]
        show getMessage (deleteMessage acc.1 i) msg.id = some msg
        rw [getMessage_deleteMessage, h]
        have hne : (msg.id == i) = false := by
          rw [beq_eq_false_iff_ne]
          intro hcon
          have h2 := hg
          rw [← hcon] at h2
          rw [h] at h2
          have hmm : message = msg := (Option.some.inj h2).symm
          rw [hmm, bulkSkip_primary requester roster msg sender hrole hsender hphone] at hsk
          cases hsk
        simp only [Option.map_some', Option.some.injEq]
        rw [if_neg (by simpa using hne)]

/-- C7: every sub-admin action targeting the member with the primary-admin
phone — updating the record, restricting, deleting the member, deleting one
of their messages individually — is denied with the store unchanged and no
broadcast, and a bulk delete leaves every message sent by that member
untouched in the store. -/
theorem C7_primary_admin_protected (st : Store) (requesterId : String) (requester : Member)
    (hreq : getMember st.members requesterId = some requester)
    (hrole : requester.role = "sub-admin") :
    (∀ targetId target p, getMember st.members targetId = some target →
       target.phone = PRIMARY_ADMIN_PHONE →
       patchMemberRoute st requesterId targetId p = (.denied, st))
    ∧ (∀ (now : Int) targetId target hoursRaw,
        getMember st.members targetId = some target →
        target.phone = PRIMARY_ADMIN_PHONE →
        restrictRoute now st requesterId targetId hoursRaw = (.denied, st))
    ∧ (∀ targetId target, getMember st.members targetId = some target →
        target.phone = PRIMARY_ADMIN_PHONE →
        deleteMemberRoute st requesterId targetId = (.denied, st))
    ∧ (∀ msgId msg sender, getMessage st.messages msgId = some msg →
        getMember st.members msg.senderId = some sender →
        sender.phone = PRIMARY_ADMIN_PHONE →
        deleteMessageRoute st requesterId msgId = (.denied, st, []))
    ∧ (∀ ids msg sender, getMessage st.messages msg.id = some msg →
        getMember st.members msg.senderId = some sender →
        sender.phone = PRIMARY_ADMIN_PHONE →
        getMessage (bulkDeleteRoute st requesterId ids).2.1.messages msg.id = some msg) := by
  have hadm : isAdminRole requester.role = true := by simp [isAdminRole, hrole]
  refine ⟨?_, ?_, ?_, ?_, ?_⟩
  · intro targetId target p ht hphone
    simp [patchMemberRoute, hreq, hadm, ht, hphone, hrole]
  · intro now targetId target hoursRaw ht hphone
    simp [restrictRoute, hreq, hadm, ht, hphone, hrole]
  · intro targetId target ht hphone
    simp [deleteMemberRoute, hreq, hadm, ht, hphone, hrole]
  · intro msgId msg sender hmsg hsender hphone
    simp [deleteMessageRoute, hreq, hadm, hmsg, hsender, hphone, hrole]
  · intro ids msg sender hmsg hsender hphone
    rw [bulkDeleteRoute, hreq]
    simp only [hadm, Bool.not_true, Bool.false_eq_true, if_false]
    by_cases hids : ids.isEmpty
    · simp only [hids, if_true]
      simpa using hmsg
    · simp only [hids, Bool.false_eq_true, if_false]
      exact bulkFold_preserves requester st.members msg sender hrole hsender hphone
        ids (st.messages, 0, 0) hmsg

/-- The sub-admin of the C7 witness. -/
def c7SubAdmin : Member :=
  { id := "s1", name := "Sub", phone := "5555555555", role := "sub-admin",
    isActive := true, restrictedUntil := none, firstLoginAt := none }

/-- The primary admin of the C7 witness. -/
def c7Primary : Member :=
  { id := "p1", name := "Admin", phone := "7030809030", role := "admin",
    isActive := true, restrictedUntil := none, firstLoginAt := none }

/-- A message sent by the primary admin. -/
def c7Msg : Message :=
  { id := "m1", senderId := "p1", content := some "hi", type := "text",
    fileUrl := none, fileName := none, isPinned := false, isDeleted := false,
    replyToId := none, mentions := none, createdAt := 0 }

/-- The store of the C7 witness. -/
def c7Store : Store :=
  { members := [c7SubAdmin, c7Primary], messages := [c7Msg], notifications := [],
    reactions := [],
    settings := { chatDisabled := false, disappearAfterHours := none,
                  memberFileSendDisabled := false, phoneNumberFilterEnabled := false },
    keywords := [] }

/-- C7 witness: the sub-admin's restriction attempt on the primary admin is
denied without state change, and a bulk delete of the primary admin's
message leaves it untouched. -/
theorem C7_primary_admin_protected_witness :
    restrictRoute 0 c7Store "s1" "p1" none = (.denied, c7Store)
    ∧ getMessage (bulkDeleteRoute c7Store "s1" ["m1"]).2.1.messages "m1" = some c7Msg :=
  ⟨(C7_primary_admin_protected c7Store "s1" c7SubAdmin (by decide) (by decide)).2.1
      0 "p1" c7Primary none (by decide) (by decide),
   (C7_primary_admin_protected c7Store "s1" c7SubAdmin (by decide) (by decide)).2.2.2.2
      ["m1"] c7Msg c7Primary (by decide) (by decide) (by decide)⟩

/-! ## Claim C3 — the notification fan-out -/

/-- Invariant of the mention loop accumulator: every notification's
recipient is in the `notifiedIds` set, every id in the set has a
notification, recipients are pairwise distinct, and the sender is never a
recipient. -/
def fanInv (senderId : String) (acc : List String × List Notif) : Prop :=
  (∀ n ∈ acc.2, n.recipientId ∈ acc.1)
  ∧ (∀ r ∈ acc.1, ∃ n ∈ acc.2, n.recipientId = r)
  ∧ (acc.2.map Notif.recipientId).Nodup
  ∧ (∀ n ∈ acc.2, n.recipientId ≠ senderId)

theorem fanInv_empty (senderId : String) :
    fanInv senderId (([], []) : List String × List Notif) := by
  refine ⟨?_, ?_, ?_, ?_⟩ <;> simp

theorem fanInit_inv (senderId msgId : String) (replyToId : Option String)
    (msgs : List Message) : fanInv senderId (fanInit senderId msgId replyToId msgs) := by
  simp only [fanInit]
  cases replyToId with
  | none => exact fanInv_empty senderId
  | some rid =>
    simp only
    cases getMessage msgs rid with
    | none => exact fanInv_empty senderId
    | some repliedMsg =>
      simp only
      by_cases hc : (repliedMsg.senderId != senderId) = true
      · rw [if_pos hc]
        have hne : repliedMsg.senderId ≠ senderId := by simpa using hc
        exact ⟨by simp, by simp, by simp, by simp [hne]⟩
      · rw [if_neg hc]
        exact fanInv_empty senderId

theorem mentionStep_inv (senderId msgId : String) (roster : List Member)
    (acc : List String × List Notif) (tok : String) (h : fanInv senderId acc) :
    fanInv senderId (mentionStep senderId msgId roster acc tok) := by
  obtain ⟨hA, hB, hC, hD⟩ := h
  simp only [mentionStep]
  cases hf : roster.find? (fun m => strToLower m.name == strToLower tok) with
  | none => exact ⟨hA, hB, hC, hD⟩
  | some mentioned =>
    simp only
    by_cases hc : (mentioned.id != senderId && !acc.1.contains mentioned.id) = true
    · rw [if_pos hc]
      simp only [Bool.and_eq_true, bne_iff_ne, ne_eq, Bool.not_eq_true] at hc
      obtain ⟨hne, hcont⟩ := hc
      have hnotin : mentioned.id ∉ acc.1 := by simpa using hcont
      refine ⟨?_, ?_, ?_, ?_⟩
      · intro n hn
        rcases List.mem_append.mp hn with hn | hn
        · exact List.mem_cons_of_mem _ (hA n hn)
        · simp only [List.mem_singleton] at hn
          subst hn
          exact List.mem_cons_self _ _
      · intro r hr
        rcases List.mem_cons.mp hr with hr | hr
        · subst hr
          exact ⟨⟨mentioned.id, senderId, msgId, "mention"⟩, by simp, rfl⟩
        · obtain ⟨n, hn, hrn⟩ := hB r hr
          exact ⟨n, List.mem_append_left _ hn, hrn⟩
      · rw [List.map_append]
        refine List.Nodup.append hC (by simp) ?_
        intro a ha hb
        simp only [List.map_cons, List.map_nil, List.mem_singleton] at hb
        subst hb
        rcases List.mem_map.mp ha with ⟨n, hn, hrn⟩
        exact hnotin (hrn ▸ hA n hn)
      · intro n hn
        rcases List.mem_append.mp hn with hn | hn
        · exact hD n hn
        · simp only [List.mem_singleton] at hn
          subst hn
          exact hne
    · rw [if_neg hc]
      exact ⟨hA, hB, hC, hD⟩

theorem fanFold_inv (senderId msgId : String) (roster : List Member) :
    ∀ (ms : List String) (acc : List String × List Notif), fanInv senderId acc →
      fanInv senderId (ms.foldl (mentionStep senderId msgId roster) acc) := by
  intro ms
  induction ms with
  | nil => intro acc h; exact h
  | cons t ts ih =>
    intro acc h
    exact ih _ (mentionStep_inv senderId msgId roster acc t h)

theorem mentionStep_mem (senderId msgId : String) (roster : List Member)
    (acc : List String × List Notif) (tok : String) (n : Notif) (h : n ∈ acc.2) :
    n ∈ (mentionStep senderId msgId roster acc tok).2 := by
  simp only [mentionStep]
  cases roster.find? (fun m => strToLower m.name == strToLower tok) with
  | none => exact h
  | some mentioned =>
    simp only
    by_cases hc : (mentioned.id != senderId && !acc.1.contains mentioned.id) = true
    · rw [if_pos hc]
      exact List.mem_append_left _ h
    · rw [if_neg hc]
      exact h

theorem mentionStep_fst (senderId msgId : String) (roster : List Member)
    (acc : List String × List Notif) (tok : String) (r : String) (h : r ∈ acc.1) :
    r ∈ (mentionStep senderId msgId roster acc tok).1 := by
  simp only [mentionStep]
  cases roster.find? (fun m => strToLower m.name == strToLower tok) with
  | none => exact h
  | some mentioned =>
    simp only
    by_cases hc : (mentioned.id != senderId && !acc.1.contains mentioned.id) = true
    · rw [if_pos hc]
      exact List.mem_cons_of_mem _ h
    · rw [if_neg hc]
      exact h

theorem fanFold_mem (senderId msgId : String) (roster : List Member) :
    ∀ (ms : List String) (acc : List String × List Notif) (n : Notif), n ∈ acc.2 →
      n ∈ (ms.foldl (mentionStep senderId msgId roster) acc).2 := by
  intro ms
  induction ms with
  | nil => intro acc n h; exact h
  | cons t ts ih =>
    intro acc n h
    exact ih _ n (mentionStep_mem senderId msgId roster acc t n h)

theorem fanFold_filter_stable (senderId msgId : String) (roster : List Member) (r : String) :
    ∀ (ms : List String) (acc : List String × List Notif), r ∈ acc.1 →
      ((ms.foldl (mentionStep senderId msgId roster) acc).2.filter
          (fun n => n.recipientId == r))
        = acc.2.filter (fun n => n.recipientId == r) := by
  intro ms
  induction ms with
  | nil => intro acc _; rfl
  | cons t ts ih =>
    intro acc hr
    rw [List.foldl_cons]
    rw [ih _ (mentionStep_fst senderId msgId roster acc t r hr)]
    simp only [mentionStep]
    cases roster.find? (fun m => strToLower m.name == strToLower t) with
    | none => rfl
    | some mentioned =>
      simp only
      by_cases hc : (mentioned.id != senderId && !acc.1.contains mentioned.id) = true
      · rw [if_pos hc]
        simp only [Bool.and_eq_true, bne_iff_ne, ne_eq, Bool.not_eq_true] at hc
        obtain ⟨hne, hcont⟩ := hc
        have hnr : mentioned.id ≠ r := by
          intro hh
          subst hh
          exact absurd hr (by simpa using hcont)
        rw [List.filter_append]
        have hone : List.filter (fun n => n.recipientId == r)
            [(⟨mentioned.id, senderId, msgId, "mention"⟩ : Notif)] = [] := by
          simp [hnr]
        rw [hone, List.append_nil]
      · rw [if_neg hc]

theorem fanFold_mention_exists (senderId msgId : String) (roster : List Member)
    (tok : String) (mem : Member)
    (hf : roster.find? (fun m => strToLower m.name == strToLower tok) = some mem)
    (hne : mem.id ≠ senderId) :
    ∀ (ms : List String) (acc : List String × List Notif), fanInv senderId acc →
      tok ∈ ms →
      ∃ n ∈ (ms.foldl (mentionStep senderId msgId roster) acc).2,
        n.recipientId = mem.id := by
  intro ms
  induction ms with
  | nil => intro acc _ htok; simp at htok
  | cons t ts ih =>
    intro acc hinv htok
    rw [List.foldl_cons]
    rcases List.mem_cons.mp htok with htok | htok
    · subst htok
      by_cases hin : mem.id ∈ acc.1
      · obtain ⟨n, hn, hrn⟩ := hinv.2.1 mem.id hin
        exact ⟨n, fanFold_mem senderId msgId roster ts _ n
          (mentionStep_mem senderId msgId roster acc tok n hn), hrn⟩
      · have hstep : (mentionStep senderId msgId roster acc tok)
            = (mem.id :: acc.1, acc.2 ++ [⟨mem.id, senderId, msgId, "mention"⟩]) := by
          simp only [mentionStep, hf]
          try simp only
          rw [if_pos]
          simp only [Bool.and_eq_true, bne_iff_ne, ne_eq, Bool.not_eq_true]
          refine ⟨hne, ?_⟩
          simpa using hin
        rw [hstep]
        exact ⟨⟨mem.id, senderId, msgId, "mention"⟩,
          fanFold_mem senderId msgId roster ts _ _ (List.mem_append_right _ (by simp)), rfl⟩
    · exact ih _ (mentionStep_inv senderId msgId roster acc t hinv) htok

theorem fanFold_typed (senderId msgId : String) (roster : List Member) :
    ∀ (ms : List String) (acc : List String × List Notif) (n : Notif),
      n ∈ (ms.foldl (mentionStep senderId msgId roster) acc).2 →
      n ∈ acc.2 ∨ n.type = "mention" := by
  intro ms
  induction ms with
  | nil => intro acc n h; exact Or.inl h
  | cons t ts ih =>
    intro acc n h
    rw [List.foldl_cons] at h
    rcases ih _ n h with hn | hn
    · simp only [mentionStep] at hn
      cases hfind : roster.find? (fun m => strToLower m.name == strToLower t) with
      | none =>
        rw [hfind] at hn
        exact Or.inl hn
      | some mentioned =>
        rw [hfind] at hn
        try simp only at hn
        by_cases hc : (mentioned.id != senderId && !acc.1.contains mentioned.id) = true
        · rw [if_pos hc] at hn
          rcases List.mem_append.mp hn with hn | hn
          · exact Or.inl hn
          · simp only [List.mem_singleton] at hn
            subst hn
            exact Or.inr rfl
        · rw [if_neg hc] at hn
          exact Or.inl hn
    · exact Or.inr hn

theorem fanInit_reply_typed (senderId msgId : String) (replyToId : Option String)
    (msgs : List Message) :
    ∀ n ∈ (fanInit senderId msgId replyToId msgs).2, n.type = "reply" := by
  simp only [fanInit]
  cases replyToId with
  | none => simp
  | some rid =>
    simp only
    cases getMessage msgs rid with
    | none => simp
    | some rm =>
      simp only
      by_cases hc : (rm.senderId != senderId) = true
      · rw [if_pos hc]
        simp
      · rw [if_neg hc]
        simp

/-- C3 (amended): the fan-out of a persisted text send creates at most one
notification per distinct recipient and none for the sender; the
reply-target's sender (when the target exists and is not the sender)
receives exactly one notification, typed "reply", even when also
mentioned; for each mention token, the first roster member whose
lower-cased display name equals the lower-cased token, if not the sender,
receives a notification; every notification is reply- or mention-typed,
and without a reply target all are mention-typed. -/
theorem C3_fanout (senderId msgId : String) (replyToId : Option String)
    (mentions : List String) (msgs : List Message) (roster : List Member) :
    ((notifFanOut senderId msgId replyToId mentions msgs roster).map Notif.recipientId).Nodup
    ∧ (∀ n ∈ notifFanOut senderId msgId replyToId mentions msgs roster,
        n.recipientId ≠ senderId)
    ∧ (∀ rid rm, replyToId = some rid → getMessage msgs rid = some rm →
        rm.senderId ≠ senderId →
        (notifFanOut senderId msgId replyToId mentions msgs roster).filter
            (fun n => n.recipientId == rm.senderId)
          = [⟨rm.senderId, senderId, msgId, "reply"⟩])
    ∧ (∀ tok mem, tok ∈ mentions →
        roster.find? (fun m => strToLower m.name == strToLower tok) = some mem →
        mem.id ≠ senderId →
        ∃ n ∈ notifFanOut senderId msgId replyToId mentions msgs roster,
          n.recipientId = mem.id)
    ∧ (∀ n ∈ notifFanOut senderId msgId replyToId mentions msgs roster,
        n.type = "reply" ∨ n.type = "mention")
    ∧ (replyToId = none →
        ∀ n ∈ notifFanOut senderId msgId replyToId mentions msgs roster,
          n.type = "mention") := by
  have hinv := fanFold_inv senderId msgId roster mentions
    (fanInit senderId msgId replyToId msgs)
    (fanInit_inv senderId msgId replyToId msgs)
  refine ⟨hinv.2.2.1, hinv.2.2.2, ?_, ?_, ?_, ?_⟩
  · intro rid rm h1 h2 h3
    have hini : fanInit senderId msgId replyToId msgs
        = ([rm.senderId], [⟨rm.senderId, senderId, msgId, "reply"⟩]) := by
      simp only [fanInit, h1, h2]
      try simp only
      rw [if_pos (by simpa using h3)]
    rw [notifFanOut, hini]
    rw [fanFold_filter_stable senderId msgId roster rm.senderId mentions _ (by simp)]
    simp
  · intro tok mem h1 h2 h3
    simp only [notifFanOut]
    exact fanFold_mention_exists senderId msgId roster tok mem h2 h3 mentions _
      (fanInit_inv senderId msgId replyToId msgs) h1
  · intro n hn
    simp only [notifFanOut] at hn
    rcases fanFold_typed senderId msgId roster mentions _ n hn with h | h
    · exact Or.inl (fanInit_reply_typed senderId msgId replyToId msgs n h)
    · exact Or.inr h
  · intro hnone n hn
    simp only [notifFanOut, hnone] at hn
    rcases fanFold_typed senderId msgId roster mentions _ n hn with h | h
    · simp [fanInit] at h
    · exact h

/-- The first member named Bob. -/
def c3BobOne : Member :=
  { id := "b1", name := "Bob", phone := "1111111111", role := "member",
    isActive := true, restrictedUntil := none, firstLoginAt := none }

/-- A second, distinct member with the same display name. -/
def c3BobTwo : Member :=
  { id := "b2", name := "Bob", phone := "2222222222", role := "member",
    isActive := true, restrictedUntil := none, firstLoginAt := none }

/-- C3 counterexample: the mention token "Bob" matches the display name of
both members, the second one is not the sender and not otherwise notified,
yet the fan-out resolves each token with `find?` and so notifies only the
first member — the second member whose display name is matched receives no
notification, contradicting the claim's "each member whose display name is
matched" clause. -/
theorem C3_duplicate_name_unnotified :
    (strToLower c3BobTwo.name == strToLower "Bob") = true
    ∧ c3BobTwo.id ≠ "s"
    ∧ notifFanOut "s" "m1" none ["Bob"] [] [c3BobOne, c3BobTwo]
        = [⟨"b1", "s", "m1", "mention"⟩]
    ∧ (notifFanOut "s" "m1" none ["Bob"] [] [c3BobOne, c3BobTwo]).all
        (fun n => n.recipientId != "b2") = true := by
  decide

/-- The replied-to message of the C3 witness, sent by Bob. -/
def c3wOrig : Message :=
  { id := "r1", senderId := "b1", content := some "orig", type := "text",
    fileUrl := none, fileName := none, isPinned := false, isDeleted := false,
    replyToId := none, mentions := none, createdAt := 0 }

/-- C3 witness: replying to Bob's message while also mentioning Bob creates
exactly one notification for Bob, typed "reply". -/
theorem C3_fanout_witness :
    (notifFanOut "s" "m1" (some "r1") ["Bob"] [c3wOrig] [c3BobOne]).filter
        (fun n => n.recipientId == c3wOrig.senderId)
      = [⟨c3wOrig.senderId, "s", "m1", "reply"⟩] :=
  (C3_fanout "s" "m1" (some "r1") ["Bob"] [c3wOrig] [c3BobOne]).2.2.1 "r1" c3wOrig
    rfl (by decide) (by decide)

end GroupChat
